import Mathlib

/-!
Verification of the dispatcher/protocol-channel layer of the repository.

Part 1: the stack-trace utilities (`rewriteErrorMessage`, `captureStackTrace`,
`splitErrorMessage`) from the client stack-trace module.

Strings are modelled with Lean `String` / `List Char`; a JavaScript character
index is a codepoint index.  JavaScript `undefined`-able fields are `Option`.
-/

namespace StackTraceMod

/-- A parsed stack frame, as in the protocol `StackFrame` shape
`{file, line, column, function}` (all of line/column/function may be absent). -/
structure StackFrame where
  file : String
  line : Option Nat
  column : Option Nat
  function : Option String
  deriving Repr, DecidableEq

/-- A JavaScript `Error` as far as the stack-trace module observes it:
`name`, `message` and an optional `stack` string. -/
structure JsError where
  name : String
  message : String
  stack : Option String
  deriving Repr, DecidableEq

/-- JavaScript `s.split(c)` for a one-character separator, as a recursion over
the characters: `acc` holds the characters of the current piece, reversed. -/
def jsSplitAux (c : Char) : List Char → List Char → List String
  | [], acc => [String.mk acc.reverse]
  | a :: rest, acc =>
    if a = c then String.mk acc.reverse :: jsSplitAux c rest []
    else jsSplitAux c rest (a :: acc)

/-- JavaScript `s.split(c)` for a one-character separator. -/
def jsSplit (s : String) (c : Char) : List String :=
  jsSplitAux c s.data []

/-- JavaScript `s.startsWith(pre)`. -/
def jsStartsWith (s pre : String) : Bool :=
  pre.data.isPrefixOf s.data

/-- JavaScript `parts.join(sep)`. -/
def jsJoin (sep : String) : List String → String
  | [] => ""
  | [x] => x
  | x :: y :: rest => x ++ sep ++ jsJoin sep (y :: rest)

/-- The lines of `e.stack?.split(newline) || []` that start with four spaces
and `at `: exactly the frame lines the source keeps. -/
def frameLines (stack : Option String) : List String :=
  match stack with
  | none => []
  | some s => (jsSplit s '\n').filter (fun l => jsStartsWith l "    at ")

/-- `rewriteErrorMessage(e, newMessage)` from the source: sets `e.message`,
rebuilds `e.stack` as `"<name>: <message>"` followed by the original frame
lines when there is at least one, leaves `e.stack` alone otherwise. -/
def rewriteErrorMessage (e : JsError) (newMessage : String) : JsError :=
  let lines := frameLines e.stack
  let e1 : JsError := { e with message := newMessage }
  let errorTitle := e1.name ++ ": " ++ e1.message
  if lines.length ≠ 0 then
    { e1 with stack := some (errorTitle ++ "\n" ++ jsJoin "\n" lines) }
  else
    e1

/-- One frame as classified by `captureStackTrace` after parsing:
the structured frame, the raw text of the line, and whether the file path
falls inside the library's own client/test directories. -/
structure ParsedFrame where
  frame : StackFrame
  frameText : String
  inClient : Bool
  deriving Repr, DecidableEq

/-- JavaScript truthiness of `frame.function` (`undefined` and the empty
string are falsy). -/
def functionTruthy (f : Option String) : Bool :=
  match f with
  | none => false
  | some s => !s.isEmpty

/-- `s[0].toLowerCase() + s.slice(1)`: the first character lower-cased. -/
def lowerFirst (s : String) : String :=
  match s.data with
  | [] => ""
  | c :: cs => String.mk (c.toLower :: cs)

/-- The `apiName` computed at the transition frame:
`frame.function ? frame.function[0].toLowerCase() + frame.function.slice(1) : ''`. -/
def apiNameOfFrame (f : StackFrame) : String :=
  if functionTruthy f.function then lowerFirst (f.function.getD "") else ""

/-- The loop of `captureStackTrace`: scan adjacent pairs for the first
(deepest) index `i` with `parsedFrames[i].inClient && !parsedFrames[i+1].inClient`;
on a hit return the transition frame together with `parsedFrames.slice(i + 1)`. -/
def findTransition : List ParsedFrame → Option (ParsedFrame × List ParsedFrame)
  | [] => none
  | [_] => none
  | a :: b :: rest =>
    if a.inClient && !b.inClient then some (a, b :: rest)
    else findTransition (b :: rest)

/-- The result record of `captureStackTrace`. -/
structure ParsedStackTrace where
  allFrames : List StackFrame
  frames : List StackFrame
  frameTexts : List String
  apiName : String
  deriving Repr, DecidableEq

/-- The pure core of `captureStackTrace`, applied to the already-parsed and
classified frames: computes `apiName` at the deepest in-client to
non-client transition, truncates `parsedFrames` to `slice(i + 1)` there,
and packages `allFrames`, `frames`, `frameTexts`, `apiName`. -/
def captureCore (parsedFrames : List ParsedFrame) : ParsedStackTrace :=
  match findTransition parsedFrames with
  | none =>
    { allFrames := parsedFrames.map (·.frame)
      frames := parsedFrames.map (·.frame)
      frameTexts := parsedFrames.map (·.frameText)
      apiName := "" }
  | some (boundary, rest) =>
    { allFrames := parsedFrames.map (·.frame)
      frames := rest.map (·.frame)
      frameTexts := rest.map (·.frameText)
      apiName := apiNameOfFrame boundary.frame }

/-- A concrete in-client frame: the deepest library frame of a typical call. -/
def sampleClientFrame : ParsedFrame :=
  { frame := { file := "/repo/lib/client/page.js", line := some 10, column := some 5,
               function := some "Page.goto" }
    frameText := "    at Page.goto (/repo/lib/client/page.js:10:5)"
    inClient := true }

/-- A concrete user-code frame: the caller of the library. -/
def sampleUserFrame : ParsedFrame :=
  { frame := { file := "/work/test.spec.js", line := some 3, column := some 1,
               function := some "myTest" }
    frameText := "    at myTest (/work/test.spec.js:3:1)"
    inClient := false }

/-- Spec-side characterization: position `i` of the parsed frame list is a
transition when the frame there is in-client and its next-outer neighbour is
not (the claims call the frame at the least such `i` the deepest transition
frame, the stack being listed innermost first). -/
def transitionAt (pf : List ParsedFrame) (i : Nat) : Bool :=
  match pf[i]?, pf[i+1]? with
  | some a, some b => a.inClient && !b.inClient
  | _, _ => false

/-- JavaScript `message.indexOf(c)`: index of the first occurrence, `-1` when
absent, as a recursion over the characters. -/
def jsIndexOf (s : List Char) (c : Char) : Int :=
  match s with
  | [] => -1
  | a :: rest =>
    if a = c then 0
    else
      let r := jsIndexOf rest c
      if r = -1 then -1 else r + 1

/-- `splitErrorMessage(message)` from the source: splits `"Name: text"` on the
first colon into `{name, message}`. -/
def splitErrorMessage (message : String) : String × String :=
  let separationIdx := jsIndexOf message.data ':'
  ( if separationIdx ≠ -1 then String.mk (message.data.take separationIdx.toNat) else ""
  , if separationIdx ≠ -1 ∧ separationIdx + 2 ≤ (message.data.length : Int) then
      String.mk (message.data.drop (separationIdx.toNat + 2))
    else message )

/-- Global mutable state touched by the snapshot prologue of
`captureStackTrace`: `Error.stackTraceLimit` plus an opaque remainder `rest`
standing for every other global. -/
structure GlobalState (σ : Type) where
  stackTraceLimit : Nat
  rest : σ
  deriving Repr, DecidableEq

/-- The snapshot prologue of `captureStackTrace` with the global state passed
explicitly: save `Error.stackTraceLimit`, set it to 30, take the stack of a
fresh `Error` (modelled by `mkStack` reading the state), restore the saved
limit.  Returns the captured stack and the final global state. -/
def captureSnapshot {σ : Type} (g : GlobalState σ) (mkStack : GlobalState σ → String) :
    String × GlobalState σ :=
  let stackTraceLimit := g.stackTraceLimit
  let g1 : GlobalState σ := { g with stackTraceLimit := 30 }
  let stack := mkStack g1
  let g2 : GlobalState σ := { g1 with stackTraceLimit := stackTraceLimit }
  (stack, g2)

end StackTraceMod

namespace DispatchersMod

/-!
Part 2: the network dispatchers (`RequestDispatcher`, `ResponseDispatcher`,
`RouteDispatcher`, `WebSocketDispatcher`, `FetchRequestDispatcher`).

The base `Dispatcher` class and the client `Connection` are not among the
source files; the helpers they provide (`existingDispatcher`, dispatcher
registration, `_dispose`/`_disposed`, `_dispatchEvent`, pending-call ids) are
modelled from the spec where noted.  Wrapped server-side objects are
identified by a numeric id; guids are numeric.
-/

/-- The dispatcher class a `from` factory belongs to. -/
inductive DispatcherType
  | request
  | response
  | route
  | fetchRequest
  deriving Repr, DecidableEq

/-- One live dispatcher: its guid, its class, and the id of the wrapped
server-side object. -/
structure DispatcherInst where
  guid : Nat
  dtype : DispatcherType
  object : Nat
  deriving Repr, DecidableEq

/-- Modelled from the spec: the registry behind `existingDispatcher` (the base
`Dispatcher` class is not among the source files).  Each wrapped object
carries at most the one dispatcher created for it, and guids are
process-unique, "generated once when an object is created server-side". -/
structure Registry where
  assoc : List (Nat × DispatcherInst)
  nextGuid : Nat
  deriving Repr, DecidableEq

/-- Modelled from the spec: `existingDispatcher(object)` returns the
dispatcher already associated with a wrapped object, if any. -/
def existingDispatcher (st : Registry) (object : Nat) : Option DispatcherInst :=
  st.assoc.lookup object

/-- Modelled from the spec: constructing a dispatcher allocates a fresh guid
and associates the new dispatcher with its wrapped object. -/
def newDispatcher (st : Registry) (dtype : DispatcherType) (object : Nat) :
    DispatcherInst × Registry :=
  let d : DispatcherInst := { guid := st.nextGuid, dtype := dtype, object := object }
  (d, { assoc := (object, d) :: st.assoc, nextGuid := st.nextGuid + 1 })

/-- The static factory shared by `RequestDispatcher.from`,
`ResponseDispatcher.from`, `RouteDispatcher.from` and
`FetchRequestDispatcher.from` in the source:
`const result = existingDispatcher(object); return result || new XDispatcher(scope, object);`. -/
def dispatcherFrom (st : Registry) (dtype : DispatcherType) (object : Nat) :
    DispatcherInst × Registry :=
  match existingDispatcher st object with
  | some result => (result, st)
  | none => newDispatcher st dtype object

/-- `RequestDispatcher.from`. -/
def RequestDispatcher_from (st : Registry) (object : Nat) : DispatcherInst × Registry :=
  dispatcherFrom st .request object

/-- `ResponseDispatcher.from`. -/
def ResponseDispatcher_from (st : Registry) (object : Nat) : DispatcherInst × Registry :=
  dispatcherFrom st .response object

/-- `RouteDispatcher.from`. -/
def RouteDispatcher_from (st : Registry) (object : Nat) : DispatcherInst × Registry :=
  dispatcherFrom st .route object

/-- `FetchRequestDispatcher.from`. -/
def FetchRequestDispatcher_from (st : Registry) (object : Nat) : DispatcherInst × Registry :=
  dispatcherFrom st .fetchRequest object

/-- Modelled from the spec: the client `Connection`'s pending-call table (the
`Connection` class is not among the source files).  `lastId` is the id
counter, `callbacks` the ids of the calls still pending. -/
structure Connection where
  lastId : Nat
  callbacks : List Nat
  deriving Repr, DecidableEq

/-- A fresh connection: no calls issued yet. -/
def initialConnection : Connection :=
  { lastId := 0, callbacks := [] }

/-- Modelled from the spec: `sendMessageToServer` "allocates the next id,
stores a pending-call entry"; ids are monotonically increasing per
connection. -/
def sendMessageToServer (c : Connection) : Nat × Connection :=
  let id := c.lastId + 1
  (id, { lastId := id, callbacks := id :: c.callbacks })

/-- Modelled from the spec: `dispatch` on a message carrying an id "looks up
and removes the pending-call entry"; a message for an unknown id is a
no-op. -/
def dispatchResponse (c : Connection) (id : Nat) : Connection :=
  if id ∈ c.callbacks then { c with callbacks := c.callbacks.erase id } else c

/-- One step of the connection's visible behaviour: issue a call, or receive
the response for a given id. -/
inductive ConnOp
  | send
  | respond (id : Nat)
  deriving Repr, DecidableEq

/-- Run one operation. -/
def connStep (c : Connection) : ConnOp → Connection
  | .send => (sendMessageToServer c).2
  | .respond id => dispatchResponse c id

/-- Run a whole sequence of operations from the fresh connection. -/
def connRun (ops : List ConnOp) : Connection :=
  ops.foldl connStep initialConnection

/-- The pending-call-table invariant: pending ids are pairwise distinct and
bounded by the id counter. -/
def ConnInv (c : Connection) : Prop :=
  c.callbacks.Nodup ∧ ∀ i ∈ c.callbacks, 1 ≤ i ∧ i ≤ c.lastId

/-- Modelled from the spec: the disposal half of the base `Dispatcher` state
("States: created → active → disposed (terminal)").  `disposed` is the
`_disposed` flag; `disposeCount` counts the `active → disposed` transitions
taken, to state that disposal happens at most once. -/
structure LifecycleState where
  disposed : Bool
  disposeCount : Nat
  deriving Repr, DecidableEq

/-- A dispatcher that has not been disposed. -/
def freshLifecycle : LifecycleState :=
  { disposed := false, disposeCount := 0 }

/-- Modelled from the spec: `super._dispose()` of the base `Dispatcher` takes
the `active → disposed` transition. -/
def disposeTransition (s : LifecycleState) : LifecycleState :=
  { disposed := true, disposeCount := s.disposeCount + 1 }

/-- The `Dispose` handler installed by the `FetchRequestDispatcher`
constructor: `if (!this._disposed) super._dispose();`. -/
def onDisposeEvent (s : LifecycleState) : LifecycleState :=
  if !s.disposed then disposeTransition s else s

/-- A WebSocket event emitted by the wrapped server-side `WebSocket`. -/
inductive WSEvent
  | frameSent (opcode : Nat) (data : String)
  | frameReceived (opcode : Nat) (data : String)
  | socketError (error : String)
  | close
  deriving Repr, DecidableEq

/-- The params payload of a pushed protocol event. -/
inductive EventParams
  | frame (opcode : Nat) (data : String)
  | errorParam (error : String)
  | empty
  deriving Repr, DecidableEq

/-- A protocol event as pushed over the wire: method name plus params. -/
structure ProtocolEvent where
  method : String
  params : EventParams
  deriving Repr, DecidableEq

/-- Modelled from the spec: `_dispatchEvent(method, params)` of the base
`Dispatcher` "pushes its events back over the wire" — it appends exactly one
protocol event to the outbound queue. -/
def dispatchEvent (outbox : List ProtocolEvent) (method : String) (params : EventParams) :
    List ProtocolEvent :=
  outbox ++ [{ method := method, params := params }]

/-- The four handlers installed by the `WebSocketDispatcher` constructor,
as one function from the incoming wrapped-object event to the new outbox. -/
def webSocketHandle (outbox : List ProtocolEvent) : WSEvent → List ProtocolEvent
  | .frameSent opcode data => dispatchEvent outbox "frameSent" (.frame opcode data)
  | .frameReceived opcode data => dispatchEvent outbox "frameReceived" (.frame opcode data)
  | .socketError error => dispatchEvent outbox "socketError" (.errorParam error)
  | .close => dispatchEvent outbox "close" .empty

/-- The event mapping as the claim states it: each wrapped-object event
corresponds to exactly one protocol event with the stated method name and
payload. -/
def wsEventToProtocol : WSEvent → ProtocolEvent
  | .frameSent opcode data => { method := "frameSent", params := .frame opcode data }
  | .frameReceived opcode data => { method := "frameReceived", params := .frame opcode data }
  | .socketError error => { method := "socketError", params := .errorParam error }
  | .close => { method := "close", params := .empty }

/-- The result shape of `fetchResponseBody`: `{ binary?: string }`. -/
structure FetchResponseBodyResult where
  binary : Option String
  deriving Repr, DecidableEq

/-- `FetchRequestDispatcher.fetchResponseBody` from the source:
`const buffer = this._object.fetchResponses.get(params.fetchUid);
return { binary: buffer ? buffer.toString(base64) : undefined };`.
`fetchResponses` is the wrapped object's uid-to-buffer map, a buffer is its
byte list, and `toBase64` stands for Node's `buffer.toString` with the base64
encoding, an external collaborator.  A `Buffer` object is always truthy in
JavaScript, so the conditional tests exactly whether the map had an entry. -/
def fetchResponseBody (toBase64 : List Nat → String)
    (fetchResponses : List (String × List Nat)) (fetchUid : String) :
    FetchResponseBodyResult :=
  match fetchResponses.lookup fetchUid with
  | some buffer => { binary := some (toBase64 buffer) }
  | none => { binary := none }

end DispatchersMod

open StackTraceMod DispatchersMod

/-! ## Theorems -/

/-- C8: the snapshot prologue of `captureStackTrace` restores
`Error.stackTraceLimit` to the value it had immediately before the call and
modifies no other global state; the snapshot itself is taken with the limit
raised to 30. -/
theorem captureStackTrace_restores_global_state {σ : Type} (g : GlobalState σ)
    (mkStack : GlobalState σ → String) :
    (captureSnapshot g mkStack).2 = g ∧
    (captureSnapshot g mkStack).1 = mkStack { g with stackTraceLimit := 30 } := by
  cases g
  exact ⟨rfl, rfl⟩

lemma dispatcherFrom_idem (st : Registry) (dtype : DispatcherType) (object : Nat) :
    dispatcherFrom (dispatcherFrom st dtype object).2 dtype object =
      dispatcherFrom st dtype object := by
  unfold dispatcherFrom existingDispatcher newDispatcher
  cases h : st.assoc.lookup object with
  | some d => simp [h]
  | none => simp [h, List.lookup]

/-- C4: the static factories `RequestDispatcher.from`,
`ResponseDispatcher.from`, `RouteDispatcher.from` and
`FetchRequestDispatcher.from` are idempotent: a second call with the same
wrapped object returns the dispatcher instance created by the first call and
leaves the registry unchanged, so at most one dispatcher exists per wrapped
object. -/
theorem dispatcher_from_idempotent (st : Registry) (object : Nat) :
    (∀ dtype, dispatcherFrom (dispatcherFrom st dtype object).2 dtype object =
      dispatcherFrom st dtype object) ∧
    RequestDispatcher_from (RequestDispatcher_from st object).2 object =
      RequestDispatcher_from st object ∧
    ResponseDispatcher_from (ResponseDispatcher_from st object).2 object =
      ResponseDispatcher_from st object ∧
    RouteDispatcher_from (RouteDispatcher_from st object).2 object =
      RouteDispatcher_from st object ∧
    FetchRequestDispatcher_from (FetchRequestDispatcher_from st object).2 object =
      FetchRequestDispatcher_from st object :=
  ⟨fun dtype => dispatcherFrom_idem st dtype object,
   dispatcherFrom_idem st .request object,
   dispatcherFrom_idem st .response object,
   dispatcherFrom_idem st .route object,
   dispatcherFrom_idem st .fetchRequest object⟩

lemma connInv_initial : ConnInv initialConnection := by
  constructor
  · exact List.nodup_nil
  · intro i hi
    simp [initialConnection] at hi

lemma connInv_step (c : Connection) (op : ConnOp) (h : ConnInv c) :
    ConnInv (connStep c op) := by
  obtain ⟨hnd, hbd⟩ := h
  cases op with
  | send =>
    constructor
    · refine List.nodup_cons.mpr ⟨?_, hnd⟩
      intro hmem
      have := (hbd _ hmem).2
      omega
    · intro i hi
      rcases List.mem_cons.mp hi with rfl | hi'
      · exact ⟨Nat.succ_le_succ (Nat.zero_le _), le_refl _⟩
      · have := hbd i hi'
        exact ⟨this.1, Nat.le_succ_of_le this.2⟩
  | respond id =>
    show ConnInv (dispatchResponse c id)
    unfold dispatchResponse
    by_cases hmem : id ∈ c.callbacks
    · rw [if_pos hmem]
      refine ⟨hnd.erase id, ?_⟩
      intro i hi
      exact hbd i (List.mem_of_mem_erase hi)
    · rw [if_neg hmem]
      exact ⟨hnd, hbd⟩

lemma connInv_run (ops : List ConnOp) : ConnInv (connRun ops) := by
  have main : ∀ (l : List ConnOp) (c : Connection), ConnInv c → ConnInv (l.foldl connStep c) := by
    intro l
    induction l with
    | nil => intro c h; exact h
    | cons op rest ih =>
      intro c h
      exact ih _ (connInv_step c op h)
  exact main ops initialConnection connInv_initial

/-- C5: after any sequence of operations on one connection, no two pending
calls share an id, every pending id is positive and bounded by the id
counter, the next allocated id strictly exceeds the counter (ids are
monotonically increasing), and the next allocated id is not currently
pending (no reuse while pending). -/
theorem connection_pending_ids_unique (ops : List ConnOp) :
    (connRun ops).callbacks.Nodup ∧
    (∀ i ∈ (connRun ops).callbacks, 1 ≤ i ∧ i ≤ (connRun ops).lastId) ∧
    (connRun ops).lastId < (sendMessageToServer (connRun ops)).1 ∧
    (sendMessageToServer (connRun ops)).1 ∉ (connRun ops).callbacks := by
  obtain ⟨hnd, hbd⟩ := connInv_run ops
  refine ⟨hnd, hbd, Nat.lt_succ_self _, ?_⟩
  intro hmem
  have hle := (hbd _ hmem).2
  have hid : (sendMessageToServer (connRun ops)).1 = (connRun ops).lastId + 1 := rfl
  omega

lemma onDisposeEvent_of_disposed (s : LifecycleState) (h : s.disposed = true) :
    onDisposeEvent s = s := by
  simp [onDisposeEvent, h]

lemma onDisposeEvent_iter_fixed (k : Nat) (s : LifecycleState) (h : s.disposed = true) :
    onDisposeEvent^[k] s = s := by
  induction k with
  | zero => rfl
  | succ m ih =>
    rw [Function.iterate_succ_apply, onDisposeEvent_of_disposed s h, ih]

/-- C6: disposal is taken at most once and the disposed state is terminal:
the `Dispose` handler of `FetchRequestDispatcher` is the identity on an
already-disposed dispatcher, and any positive number of `Dispose` events from
a fresh dispatcher yields exactly one dispose transition. -/
theorem fetchRequestDispatcher_dispose_once :
    (∀ s : LifecycleState, s.disposed = true → onDisposeEvent s = s) ∧
    (∀ n : Nat, 1 ≤ n →
      onDisposeEvent^[n] freshLifecycle = { disposed := true, disposeCount := 1 }) := by
  refine ⟨onDisposeEvent_of_disposed, ?_⟩
  intro n hn
  cases n with
  | zero => omega
  | succ m =>
    rw [Function.iterate_succ_apply]
    have h1 : onDisposeEvent freshLifecycle = { disposed := true, disposeCount := 1 } := rfl
    rw [h1]
    exact onDisposeEvent_iter_fixed m _ rfl

/-- C6 witness: a second `Dispose` event on a disposed dispatcher changes
nothing, and three `Dispose` events from fresh yield one transition. -/
theorem fetchRequestDispatcher_dispose_once_witness :
    onDisposeEvent { disposed := true, disposeCount := 1 } =
      { disposed := true, disposeCount := 1 } ∧
    onDisposeEvent^[3] freshLifecycle = { disposed := true, disposeCount := 1 } :=
  ⟨fetchRequestDispatcher_dispose_once.1 _ rfl,
   fetchRequestDispatcher_dispose_once.2 3 (by decide)⟩

/-- C7: every event of the wrapped WebSocket is pushed as exactly one
protocol event preserving the payload: `FrameSent` as `frameSent` with the
same `{opcode, data}`, `FrameReceived` as `frameReceived` with the same
payload, `SocketError` as `socketError` with `{error}`, `Close` as `close`
with empty params; over any event sequence the outbox grows by exactly the
image of that sequence, in order. -/
theorem webSocketDispatcher_event_mapping (outbox : List ProtocolEvent)
    (events : List WSEvent) (e : WSEvent) :
    webSocketHandle outbox e = outbox ++ [wsEventToProtocol e] ∧
    events.foldl webSocketHandle outbox = outbox ++ events.map wsEventToProtocol := by
  constructor
  · cases e <;> rfl
  · induction events generalizing outbox with
    | nil => simp
    | cons ev rest ih =>
      have h1 : webSocketHandle outbox ev = outbox ++ [wsEventToProtocol ev] := by
        cases ev <;> rfl
      rw [List.foldl_cons, h1, ih, List.map_cons]
      simp

lemma lookup_none_of_no_key (m : List (String × List Nat)) (uid : String)
    (h : ∀ p ∈ m, p.1 ≠ uid) : m.lookup uid = none := by
  induction m with
  | nil => rfl
  | cons p rest ih =>
    have hp : p.1 ≠ uid := h p (List.mem_cons_self p rest)
    have hbeq : (uid == p.1) = false := by
      simp [beq_iff_eq]
      exact fun e => hp e.symm
    rw [List.lookup, hbeq]
    exact ih (fun q hq => h q (List.mem_cons_of_mem p hq))

/-- C10: when the wrapped object's `fetchResponses` map has no entry for the
requested `fetchUid`, `FetchRequestDispatcher.fetchResponseBody` returns
`{ binary: undefined }` rather than failing. -/
theorem fetchResponseBody_missing_uid (toBase64 : List Nat → String)
    (fetchResponses : List (String × List Nat)) (fetchUid : String)
    (h : ∀ p ∈ fetchResponses, p.1 ≠ fetchUid) :
    fetchResponseBody toBase64 fetchResponses fetchUid = { binary := none } := by
  unfold fetchResponseBody
  rw [lookup_none_of_no_key fetchResponses fetchUid h]

/-- C10 witness: a concrete lookup of an absent uid. -/
theorem fetchResponseBody_missing_uid_witness :
    fetchResponseBody (fun _ => "") [("uid-1", [7, 8])] "uid-2" = { binary := none } :=
  fetchResponseBody_missing_uid (fun _ => "") [("uid-1", [7, 8])] "uid-2" (by decide)

lemma rewriteErrorMessage_if_pos (e : JsError) (m : String)
    (h : (frameLines e.stack).length ≠ 0) :
    rewriteErrorMessage e m =
      { name := e.name, message := m,
        stack := some (e.name ++ ": " ++ m ++ "\n" ++ jsJoin "\n" (frameLines e.stack)) } := by
  unfold rewriteErrorMessage
  rw [if_pos h]

lemma rewriteErrorMessage_if_neg (e : JsError) (m : String)
    (h : ¬(frameLines e.stack).length ≠ 0) :
    rewriteErrorMessage e m = { name := e.name, message := m, stack := e.stack } := by
  unfold rewriteErrorMessage
  rw [if_neg h]

/-- C2: `rewriteErrorMessage(e, m)` keeps `e.name`, sets `e.message` to `m`;
when the original stack has at least one line starting with four spaces and
`at `, the new stack is `name: m` followed by exactly those lines in order
(non-frame lines removed); when it has none, or there is no stack, the stack
is unchanged. -/
theorem rewriteErrorMessage_spec (e : JsError) (m : String) :
    (rewriteErrorMessage e m).name = e.name ∧
    (rewriteErrorMessage e m).message = m ∧
    (∀ s, e.stack = some s →
      ((∃ l ∈ jsSplit s '\n', jsStartsWith l "    at " = true) →
        (rewriteErrorMessage e m).stack =
          some (e.name ++ ": " ++ m ++ "\n" ++
            jsJoin "\n" ((jsSplit s '\n').filter (fun l => jsStartsWith l "    at ")))) ∧
      ((∀ l ∈ jsSplit s '\n', jsStartsWith l "    at " = false) →
        (rewriteErrorMessage e m).stack = e.stack)) ∧
    (e.stack = none → (rewriteErrorMessage e m).stack = none) := by
  have hname : (rewriteErrorMessage e m).name = e.name := by
    by_cases h : (frameLines e.stack).length ≠ 0
    · rw [rewriteErrorMessage_if_pos e m h]
    · rw [rewriteErrorMessage_if_neg e m h]
  have hmsg : (rewriteErrorMessage e m).message = m := by
    by_cases h : (frameLines e.stack).length ≠ 0
    · rw [rewriteErrorMessage_if_pos e m h]
    · rw [rewriteErrorMessage_if_neg e m h]
  refine ⟨hname, hmsg, ?_, ?_⟩
  · intro s hs
    constructor
    · intro hex
      obtain ⟨l, hl, hpl⟩ := hex
      have hne : (jsSplit s '\n').filter (fun l => jsStartsWith l "    at ") ≠ [] := by
        intro hnil
        exact (List.filter_eq_nil_iff.mp hnil l hl) hpl
      have hfl : frameLines e.stack =
          (jsSplit s '\n').filter (fun l => jsStartsWith l "    at ") := by
        rw [hs]; rfl
      have hlen : (frameLines e.stack).length ≠ 0 := by
        rw [hfl]
        intro h0
        exact hne (List.length_eq_zero.mp h0)
      rw [rewriteErrorMessage_if_pos e m hlen, hfl]
    · intro hall
      have hfl : frameLines e.stack =
          (jsSplit s '\n').filter (fun l => jsStartsWith l "    at ") := by
        rw [hs]; rfl
      have hnil : (jsSplit s '\n').filter (fun l => jsStartsWith l "    at ") = [] := by
        refine List.filter_eq_nil_iff.mpr ?_
        intro a ha
        rw [hall a ha]
        exact Bool.false_ne_true
      have hlen : ¬(frameLines e.stack).length ≠ 0 := by
        rw [hfl, hnil]
        simp
      rw [rewriteErrorMessage_if_neg e m hlen]
  · intro hs
    have hlen : ¬(frameLines e.stack).length ≠ 0 := by
      rw [hs]
      simp [frameLines]
    rw [rewriteErrorMessage_if_neg e m hlen, hs]

/-- C2 witness: a concrete error whose stack has one frame line and one
noise line. -/
theorem rewriteErrorMessage_spec_witness :
    (rewriteErrorMessage
        { name := "Error", message := "old",
          stack := some "Error: old\n    at foo (a.js:1:1)\nnoise" } "boom").stack =
      some ("Error" ++ ": " ++ "boom" ++ "\n" ++
        jsJoin "\n" ((jsSplit "Error: old\n    at foo (a.js:1:1)\nnoise" '\n').filter
          (fun l => jsStartsWith l "    at "))) :=
  ((rewriteErrorMessage_spec
      { name := "Error", message := "old",
        stack := some "Error: old\n    at foo (a.js:1:1)\nnoise" } "boom").2.2.1
    "Error: old\n    at foo (a.js:1:1)\nnoise" rfl).1
    ⟨"    at foo (a.js:1:1)", by decide, by decide⟩

lemma jsIndexOf_nonneg_or (s : List Char) (c : Char) :
    jsIndexOf s c = -1 ∨ 0 ≤ jsIndexOf s c := by
  induction s with
  | nil => left; rfl
  | cons a rest ih =>
    by_cases hac : a = c
    · right; simp [jsIndexOf, hac]
    · rcases ih with h | h
      · left; simp [jsIndexOf, hac, h]
      · by_cases hr : jsIndexOf rest c = -1
        · left; simp [jsIndexOf, hac, hr]
        · right; simp [jsIndexOf, hac, hr]; omega

lemma jsIndexOf_eq_neg_one_iff (s : List Char) (c : Char) :
    jsIndexOf s c = -1 ↔ c ∉ s := by
  induction s with
  | nil => simp [jsIndexOf]
  | cons a rest ih =>
    by_cases hac : a = c
    · subst hac
      simp [jsIndexOf]
    · rcases jsIndexOf_nonneg_or rest c with h | h
      · simp [jsIndexOf, hac, h, ih.mp h, Ne.symm hac]
      · have hne : jsIndexOf rest c ≠ -1 := by omega
        have hmem : c ∈ rest := by
          by_contra hc
          exact hne (ih.mpr hc)
        simp [jsIndexOf, hac, hne, hmem]
        omega

lemma jsIndexOf_least (s : List Char) (c : Char) (k : Nat)
    (hk : s[k]? = some c) (hmin : ∀ j, j < k → s[j]? ≠ some c) :
    jsIndexOf s c = (k : Int) := by
  induction s generalizing k with
  | nil => simp at hk
  | cons a rest ih =>
    cases k with
    | zero =>
      have ha : a = c := by simpa using hk
      simp [jsIndexOf, ha]
    | succ k' =>
      have ha : a ≠ c := by
        have h0 := hmin 0 (Nat.succ_pos k')
        simpa using h0
      have hk' : rest[k']? = some c := by simpa using hk
      have hmin' : ∀ j, j < k' → rest[j]? ≠ some c := by
        intro j hj
        have := hmin (j + 1) (Nat.succ_lt_succ hj)
        simpa using this
      have hrec := ih k' hk' hmin'
      have hne : jsIndexOf rest c ≠ -1 := by
        rw [hrec]; omega
      simp [jsIndexOf, ha, hne, hrec]

/-- C9: `splitErrorMessage(s)` returns `{name: "", message: s}` when `s` has
no colon; when the first colon is at index `k`, the name is the prefix of
length `k` and the message is the suffix from index `k + 2` when
`k + 2 ≤ s.length`, and all of `s` otherwise. -/
theorem splitErrorMessage_spec (s : String) :
    ((':' ∉ s.data) → splitErrorMessage s = ("", s)) ∧
    (∀ k : Nat, s.data[k]? = some ':' → (∀ j, j < k → s.data[j]? ≠ some ':') →
      (splitErrorMessage s).1 = String.mk (s.data.take k) ∧
      (splitErrorMessage s).2 =
        if k + 2 ≤ s.data.length then String.mk (s.data.drop (k + 2)) else s) := by
  constructor
  · intro hnm
    have hidx : jsIndexOf s.data ':' = -1 := (jsIndexOf_eq_neg_one_iff s.data ':').mpr hnm
    unfold splitErrorMessage
    rw [hidx]
    simp
  · intro k hk hmin
    have hidx : jsIndexOf s.data ':' = (k : Int) := jsIndexOf_least s.data ':' k hk hmin
    have hne : jsIndexOf s.data ':' ≠ -1 := by rw [hidx]; omega
    constructor
    · unfold splitErrorMessage
      rw [hidx]
      have hkne : ((k : Int) ≠ -1) = True := by simp
      simp only [hkne, if_true]
      norm_num
    · unfold splitErrorMessage
      rw [hidx]
      dsimp only
      by_cases hle : k + 2 ≤ s.data.length
      · have hcond : (k : Int) ≠ -1 ∧ (k : Int) + 2 ≤ (s.data.length : Int) := by
          constructor
          · omega
          · exact_mod_cast hle
        rw [if_pos hcond, if_pos hle]
        norm_num
      · have hcond : ¬((k : Int) ≠ -1 ∧ (k : Int) + 2 ≤ (s.data.length : Int)) := by
          intro hc
          exact hle (by exact_mod_cast hc.2)
        rw [if_neg hcond, if_neg hle]

/-- C9 witness: the concrete message `Error: msg`, first colon at index 5. -/
theorem splitErrorMessage_spec_witness :
    (splitErrorMessage "Error: msg").1 = String.mk (("Error: msg").data.take 5) ∧
    (splitErrorMessage "Error: msg").2 =
      if 5 + 2 ≤ ("Error: msg").data.length then String.mk (("Error: msg").data.drop (5 + 2))
      else "Error: msg" :=
  (splitErrorMessage_spec "Error: msg").2 5 (by decide) (by decide)

lemma transitionAt_nil (i : Nat) : transitionAt [] i = false := by
  simp [transitionAt]

lemma transitionAt_single (a : ParsedFrame) (i : Nat) : transitionAt [a] i = false := by
  cases i with
  | zero => simp [transitionAt]
  | succ j => simp [transitionAt]

lemma transitionAt_cons_zero (a b : ParsedFrame) (l : List ParsedFrame) :
    transitionAt (a :: b :: l) 0 = (a.inClient && !b.inClient) := by
  simp [transitionAt]

lemma transitionAt_cons_succ (a : ParsedFrame) (l : List ParsedFrame) (j : Nat) :
    transitionAt (a :: l) (j + 1) = transitionAt l j := by
  simp [transitionAt]

lemma findTransition_none (pf : List ParsedFrame) (h : findTransition pf = none) :
    ∀ i, transitionAt pf i = false := by
  induction pf with
  | nil => intro i; exact transitionAt_nil i
  | cons a l ih =>
    cases l with
    | nil => intro i; exact transitionAt_single a i
    | cons b rest =>
      by_cases hc : (a.inClient && !b.inClient) = true
      · rw [findTransition, if_pos hc] at h
        exact absurd h (by simp)
      · rw [findTransition, if_neg hc] at h
        intro i
        cases i with
        | zero =>
          rw [transitionAt_cons_zero]
          simpa using hc
        | succ j =>
          rw [transitionAt_cons_succ]
          exact ih h j

lemma findTransition_some (pf : List ParsedFrame) (a : ParsedFrame)
    (rest : List ParsedFrame) (h : findTransition pf = some (a, rest)) :
    ∃ i₀, pf[i₀]? = some a ∧ rest = pf.drop (i₀ + 1) ∧ transitionAt pf i₀ = true ∧
      ∀ j, j < i₀ → transitionAt pf j = false := by
  induction pf with
  | nil => simp [findTransition] at h
  | cons x l ih =>
    cases l with
    | nil => simp [findTransition] at h
    | cons y rest2 =>
      by_cases hc : (x.inClient && !y.inClient) = true
      · rw [findTransition, if_pos hc] at h
        obtain ⟨ha, hrest⟩ := Prod.mk.injEq .. ▸ Option.some.injEq .. ▸ h
        refine ⟨0, ?_, ?_, ?_, ?_⟩
        · simp [← ha]
        · simpa using hrest.symm
        · rw [transitionAt_cons_zero]; exact hc
        · intro j hj; omega
      · rw [findTransition, if_neg hc] at h
        obtain ⟨i₀, h1, h2, h3, h4⟩ := ih h
        refine ⟨i₀ + 1, ?_, ?_, ?_, ?_⟩
        · simpa using h1
        · simpa using h2
        · rw [transitionAt_cons_succ]; exact h3
        · intro j hj
          cases j with
          | zero =>
            rw [transitionAt_cons_zero]
            simpa using hc
          | succ j' =>
            rw [transitionAt_cons_succ]
            exact h4 j' (by omega)

lemma findTransition_of_least (pf : List ParsedFrame) (i₀ : Nat) (a : ParsedFrame)
    (ha : pf[i₀]? = some a) (ht : transitionAt pf i₀ = true)
    (hmin : ∀ j, j < i₀ → transitionAt pf j = false) :
    findTransition pf = some (a, pf.drop (i₀ + 1)) := by
  cases hft : findTransition pf with
  | none =>
    have := findTransition_none pf hft i₀
    rw [ht] at this
    exact absurd this (by simp)
  | some pr =>
    obtain ⟨b, rest⟩ := pr
    obtain ⟨i₁, h1, h2, h3, h4⟩ := findTransition_some pf b rest hft
    have hii : i₁ = i₀ := by
      rcases Nat.lt_trichotomy i₁ i₀ with hlt | heq | hgt
      · have := hmin i₁ hlt
        rw [h3] at this
        exact absurd this (by simp)
      · exact heq
      · have := h4 i₀ hgt
        rw [ht] at this
        exact absurd this (by simp)
    subst hii
    rw [h1] at ha
    obtain rfl : b = a := by simpa using ha
    rw [h2]

/-- C1: when the deepest in-client to non-client transition of the captured
stack is at index `i₀` (the stack listed innermost first) with frame `a`,
the returned `apiName` is the frame's function name with its first character
lower-cased, or the empty string when the frame has no function name; with
no transition at all, `apiName` is empty. -/
theorem captureStackTrace_apiName_spec (pf : List ParsedFrame) :
    (∀ i₀ a, transitionAt pf i₀ = true → (∀ j, j < i₀ → transitionAt pf j = false) →
      pf[i₀]? = some a →
      (captureCore pf).apiName =
        (match a.frame.function with
          | some f => lowerFirst f
          | none => "")) ∧
    ((∀ i, transitionAt pf i = false) → (captureCore pf).apiName = "") := by
  constructor
  · intro i₀ a ht hmin ha
    have hft := findTransition_of_least pf i₀ a ha ht hmin
    rw [captureCore, hft]
    show apiNameOfFrame a.frame = _
    rw [apiNameOfFrame]
    cases hf : a.frame.function with
    | none => simp [functionTruthy]
    | some f =>
      by_cases hfe : f.isEmpty
      · have : f = "" := (String.isEmpty_iff f).mp hfe
        subst this
        simp [functionTruthy, lowerFirst]
      · simp [functionTruthy, hfe]
  · intro hall
    cases hft : findTransition pf with
    | none => rw [captureCore, hft]
    | some pr =>
      obtain ⟨b, rest⟩ := pr
      obtain ⟨i₁, _, _, h3, _⟩ := findTransition_some pf b rest hft
      have := hall i₁
      rw [h3] at this
      exact absurd this (by simp)

/-- C1 witness: a two-frame stack with the boundary frame named `Page.goto`;
the reported api name is its function name with the first character
lower-cased. -/
theorem captureStackTrace_apiName_witness :
    (captureCore [sampleClientFrame, sampleUserFrame]).apiName =
      (match sampleClientFrame.frame.function with
        | some f => lowerFirst f
        | none => "") :=
  (captureStackTrace_apiName_spec [sampleClientFrame, sampleUserFrame]).1 0
    sampleClientFrame (by decide) (fun j hj => absurd hj (Nat.not_lt_zero j)) (by decide)

/-- C3 counterexample: on a stack whose deepest transition is at index 0
(an in-client boundary frame directly followed by a user frame), the
returned frames list is the user frame alone — the boundary frame is
discarded, not kept as the claim states. -/
theorem captureStackTrace_frames_counterexample :
    transitionAt [sampleClientFrame, sampleUserFrame] 0 = true ∧
    (captureCore [sampleClientFrame, sampleUserFrame]).frames = [sampleUserFrame.frame] ∧
    (captureCore [sampleClientFrame, sampleUserFrame]).frames ≠
      [sampleClientFrame.frame, sampleUserFrame.frame] ∧
    sampleClientFrame.frame ∉ (captureCore [sampleClientFrame, sampleUserFrame]).frames := by
  refine ⟨by decide, by decide, by decide, by decide⟩

/-- C3 (amended): when the deepest in-client to non-client transition is at
index `i₀`, the returned frames list is exactly the frames strictly after
the boundary frame (the boundary frame itself is discarded); with no
transition, `frames` equals `allFrames`. -/
theorem captureStackTrace_frames_spec (pf : List ParsedFrame) :
    (∀ i₀, transitionAt pf i₀ = true → (∀ j, j < i₀ → transitionAt pf j = false) →
      (captureCore pf).frames = (pf.drop (i₀ + 1)).map (·.frame)) ∧
    ((∀ i, transitionAt pf i = false) →
      (captureCore pf).frames = (captureCore pf).allFrames) := by
  constructor
  · intro i₀ ht hmin
    have ⟨a, ha⟩ : ∃ a, pf[i₀]? = some a := by
      rw [transitionAt] at ht
      cases hx : pf[i₀]? with
      | none => rw [hx] at ht; simp at ht
      | some v => exact ⟨v, rfl⟩
    have hft := findTransition_of_least pf i₀ a ha ht hmin
    rw [captureCore, hft]
  · intro hall
    cases hft : findTransition pf with
    | none => rw [captureCore, hft]
    | some pr =>
      obtain ⟨b, rest⟩ := pr
      obtain ⟨i₁, _, _, h3, _⟩ := findTransition_some pf b rest hft
      have := hall i₁
      rw [h3] at this
      exact absurd this (by simp)

/-- C3 witness: the amended statement at the concrete two-frame stack; the
kept frames are those strictly after the boundary at index 0. -/
theorem captureStackTrace_frames_witness :
    (captureCore [sampleClientFrame, sampleUserFrame]).frames =
      (([sampleClientFrame, sampleUserFrame].drop (0 + 1)).map (·.frame)) :=
  (captureStackTrace_frames_spec [sampleClientFrame, sampleUserFrame]).1 0
    (by decide) (fun j hj => absurd hj (Nat.not_lt_zero j))
